import Mathlib

/-!
Verification of the UDP networking core of the repository against its
specification.  The development shallowly embeds the two core classes,
`_Server` (src/server.py) and `_Connection` (src/client.py), as Lean state
records with one executable function per atomic block of code between two
cooperative suspension points (every `await` of the anyio event loop).
Application payloads and wire bytes are both modelled as `Nat`; the
caller-supplied codec hooks (`encode`/`decode`, identity by default, see
src/server.py lines 18-19 and src/client.py lines 18-19) are carried as
function-valued fields of the state.  Datagram transmissions are modelled as
explicit events so that ordering and addressing properties can be stated
about traces.
-/

namespace UdpDemo

/-- A remote endpoint as a (host, port) pair (src/server.py line 23,
src/client.py line 31).  Hosts are strings, ports are naturals. -/
abbrev Address := String × Nat

/-!
Server embedding.  `_Server` (src/server.py) owns one bound socket, an
incoming queue of `(decoded value, source address)` pairs, an outgoing queue
of `(address, application value)` pairs, an opaque `game_state` and a
caller-managed client registry.  The registry is a Python `set`; we model it
as the list of addresses in iteration order, which is all lines 48 and 72
depend on.
-/

/-- State of `_Server` (src/server.py lines 16-28).  The socket itself and
the bound local address play no role in the queue/tick claims and are
omitted; `game_state` is opaque to the core and modelled as a `Nat`. -/
structure Server where
  encode : Nat → Nat
  decode : Nat → Nat
  out_queue : List (Address × Nat)
  in_queue : List (Nat × Address)
  game_state : Nat
  clients : List Address

/-- An observable transmission of the server: `_Server._sendto` passes the
encoded payload and the target address to the socket (src/server.py
lines 35-37). -/
inductive SEv
  | sent (target : Address) (payload : Nat)
deriving DecidableEq

/-- Public `_Server.sendto` (src/server.py lines 39-44): unconditionally
append an `(address, packet)` pair to the outgoing queue. -/
def Server.sendto (a : Address) (v : Nat) (s : Server) : Server :=
  {s with out_queue := s.out_queue ++ [(a, v)]}

/-- Public `_Server.sendall` (src/server.py lines 46-49): append one
`(address, packet)` pair per currently registered client. -/
def Server.sendall (v : Nat) (s : Server) : Server :=
  {s with out_queue := s.out_queue ++ s.clients.map (fun a => (a, v))}

/-- Events of the broadcast loop at src/server.py lines 72-73: one datagram
carrying the encoded game state per registered client, in registry order. -/
def broadcastEvs (enc : Nat → Nat) (g : Nat) : List Address → List SEv
  | [] => []
  | a :: rest => .sent a (enc g) :: broadcastEvs enc g rest

/-- Events of the flush loop at src/server.py lines 75-76: one datagram per
queued `(address, packet)` pair, in queue order. -/
def flushEvs (enc : Nat → Nat) : List (Address × Nat) → List SEv
  | [] => []
  | (a, p) :: rest => .sent a (enc p) :: flushEvs enc rest

/-- One iteration of the tick task `_Server._server_tick` (src/server.py
lines 65-78): invoke the tick callback `cb` (line 69), yield once
(line 70) — during the yield the receive task may append any batch `ext` of
arrived datagrams to the incoming queue (src/server.py lines 51-54, decoding
each on receipt) — then broadcast the game state to every registered client
(lines 72-73), send every queued per-client packet in order (lines 75-76)
and clear the outgoing queue (line 78).  The receive task may also run
during the `await`s of the sends, but it only ever touches `in_queue`, so
folding all of its activity into `ext` is faithful for every field the
claims mention. -/
def Server.serverTick (cb : Server → Server) (ext : List (Nat × Address))
    (s : Server) : Server × List SEv :=
  let s1 := cb s
  let s2 := {s1 with in_queue := s1.in_queue ++ ext.map (fun (pa : Nat × Address) => (s1.decode pa.1, pa.2))}
  ({s2 with out_queue := []},
    broadcastEvs s2.encode s2.game_state s2.clients ++ flushEvs s2.encode s2.out_queue)

theorem broadcastEvs_eq_map (enc : Nat → Nat) (g : Nat) (l : List Address) :
    broadcastEvs enc g l = l.map (fun a => SEv.sent a (enc g)) := by
  induction l with
  | nil => rfl
  | cons a rest ih => simp [broadcastEvs, ih]

theorem flushEvs_eq_map (enc : Nat → Nat) (q : List (Address × Nat)) :
    flushEvs enc q = q.map (fun p => SEv.sent p.1 (enc p.2)) := by
  induction q with
  | nil => rfl
  | cons hd rest ih => cases hd; simp [flushEvs, ih]

theorem mem_broadcastEvs {enc : Nat → Nat} {g : Nat} {l : List Address}
    {a : Address} {x : Nat} :
    SEv.sent a x ∈ broadcastEvs enc g l ↔ a ∈ l ∧ x = enc g := by
  rw [broadcastEvs_eq_map]
  constructor
  · intro h
    rcases List.mem_map.mp h with ⟨b, hb, he⟩
    cases he
    exact ⟨hb, rfl⟩
  · rintro ⟨ha, rfl⟩
    exact List.mem_map.mpr ⟨a, ha, rfl⟩

theorem mem_flushEvs {enc : Nat → Nat} {q : List (Address × Nat)}
    {a : Address} {x : Nat} :
    SEv.sent a x ∈ flushEvs enc q ↔ ∃ p, (a, p) ∈ q ∧ x = enc p := by
  rw [flushEvs_eq_map]
  constructor
  · intro h
    rcases List.mem_map.mp h with ⟨⟨b, p⟩, hb, he⟩
    cases he
    exact ⟨p, hb, rfl⟩
  · rintro ⟨p, hp, rfl⟩
    exact List.mem_map.mpr ⟨(a, p), hp, rfl⟩

/-- C1: for every tick of the server's tick task the steps occur in strict
order — the tick callback runs once first, control yields once (the receive
batch `ext` lands in the incoming queue), then the current game state is
sent to every address of the (post-callback) client registry, then every
packet enqueued via `sendto`/`sendall` is sent in enqueue order, and the
outgoing queue ends the tick empty.  Hence every per-client packet enqueued
by the tick's callback is flushed within that same tick, and the broadcast
reflects that tick's mutations of `game_state` and `clients`. -/
theorem C1_server_tick_order (cb : Server → Server) (ext : List (Nat × Address))
    (s : Server) :
    ((Server.serverTick cb ext s).1.out_queue = []) ∧
    ((Server.serverTick cb ext s).2 =
      (cb s).clients.map (fun a => SEv.sent a ((cb s).encode (cb s).game_state))
        ++ (cb s).out_queue.map (fun p => SEv.sent p.1 ((cb s).encode p.2))) ∧
    (∀ a p, (a, p) ∈ (cb s).out_queue →
      SEv.sent a ((cb s).encode p) ∈ (Server.serverTick cb ext s).2) ∧
    ((Server.serverTick cb ext s).1.game_state = (cb s).game_state) ∧
    ((Server.serverTick cb ext s).1.clients = (cb s).clients) ∧
    ((Server.serverTick cb ext s).1.in_queue =
      (cb s).in_queue ++ ext.map (fun (pa : Nat × Address) => ((cb s).decode pa.1, pa.2))) := by
  refine ⟨rfl, ?_, ?_, rfl, rfl, rfl⟩
  · simp [Server.serverTick, broadcastEvs_eq_map, flushEvs_eq_map]
  · intro a p hp
    simp only [Server.serverTick, List.mem_append]
    right
    exact mem_flushEvs.mpr ⟨p, hp, rfl⟩

/-- C10: `Server.sendto` enqueues a packet for any address whatsoever,
registered or not, and such a packet is transmitted at the tick's flush even
when the address is not in the client registry; membership in `clients`
gates only the game-state broadcast and `sendall`, never delivery of
`sendto` packets.  Stated for an arbitrary tick callback `cb` and an
address `a` that is unregistered after the callback ran. -/
theorem C10_sendto_ignores_registry (cb : Server → Server)
    (ext : List (Nat × Address)) (s : Server) (a : Address) (v : Nat)
    (h : a ∉ (cb s).clients) :
    ((Server.sendto a v s).out_queue = s.out_queue ++ [(a, v)]) ∧
    ((a, v) ∈ (cb s).out_queue →
      SEv.sent a ((cb s).encode v) ∈ (Server.serverTick cb ext s).2) ∧
    (∀ x, SEv.sent a x ∈ (Server.serverTick cb ext s).2 →
      ∃ p, (a, p) ∈ (cb s).out_queue ∧ x = (cb s).encode p) ∧
    (∀ w q, (a, q) ∈ (Server.sendall w (cb s)).out_queue → (a, q) ∈ (cb s).out_queue) := by
  refine ⟨rfl, ?_, ?_, ?_⟩
  · intro hmem
    simp only [Server.serverTick, List.mem_append]
    right
    exact mem_flushEvs.mpr ⟨v, hmem, rfl⟩
  · intro x hx
    simp only [Server.serverTick, List.mem_append] at hx
    rcases hx with hb | hf
    · exact absurd (mem_broadcastEvs.mp hb).1 h
    · exact mem_flushEvs.mp hf
  · intro w q hq
    simp only [Server.sendall, List.mem_append] at hq
    rcases hq with hq | hq
    · exact hq
    · rcases List.mem_map.mp hq with ⟨b, hb, he⟩
      cases he
      exact absurd hb h

/-- Concrete instantiation of the C10 theorem: a server whose registry holds
only `("c", 1)` and whose queue holds a packet for the unregistered address
`("n", 9)`. -/
def c10Server : Server :=
  { encode := fun x => x, decode := fun x => x,
    out_queue := [(("n", 9), 7)], in_queue := [],
    game_state := 0, clients := [("c", 1)] }

/-- Identity tick callback, used to instantiate theorems at concrete
inputs. -/
def idCb : Server → Server := fun s => s

theorem C10_witness :
    ((Server.sendto ("n", 9) 7 c10Server).out_queue = c10Server.out_queue ++ [(("n", 9), 7)]) ∧
    ((("n", 9), 7) ∈ (idCb c10Server).out_queue →
      SEv.sent ("n", 9) ((idCb c10Server).encode 7) ∈ (Server.serverTick idCb [] c10Server).2) ∧
    (∀ x, SEv.sent ("n", 9) x ∈ (Server.serverTick idCb [] c10Server).2 →
      ∃ p, (("n", 9), p) ∈ (idCb c10Server).out_queue ∧ x = (idCb c10Server).encode p) ∧
    (∀ w q, (("n", 9), q) ∈ (Server.sendall w (idCb c10Server)).out_queue →
      (("n", 9), q) ∈ (idCb c10Server).out_queue) :=
  C10_sendto_ignores_registry idCb [] c10Server ("n", 9) 7 (by decide)

/-!
Connection embedding.  `_Connection` (src/client.py) runs four cooperative
tasks inside `run`: the lifecycle task `_socket_loop`, the send task
`_send_loop`, the receive task `_recv_loop` and the caller's application
task.  All of them share the mutable object state; a task runs
uninterrupted between two `await` points of the single-threaded anyio
event loop.  We model the object state as a record, each inter-`await`
block of each task as a state-transformer, and an interleaved execution as
an arbitrary sequence of such blocks (the `Reachable` predicate).

Two ghost components instrument the model without changing behaviour:

* each socket object carries `gen`, a creation counter, so that the model
  can speak about "the same socket object" across a teardown/recreate race
  (the real code distinguishes old and new socket objects by identity, and
  a closed old object raises `anyio.ClosedResourceError`);
* each queued outgoing packet carries `tag`, the address the socket was
  bound to when `send` enqueued it (the real packet is addressed to
  whatever socket the send task holds when it transmits it).

Program counters: the lifecycle task suspends inside
`anyio.create_connected_udp_socket` between reading the requested address
(the argument at src/client.py line 76) and storing the new socket
(`LoopPC.midConnect`); the send task suspends inside `socket.send` between
popping the packet (argument at line 108) and the transmission completing
(`spc` holds the popped packet and the captured socket); the receive task's
`async for` holds on to the socket object it captured at line 123 (`rpc`
holds its generation).  `await self._socket.aclose()` inside
`_close_socket` is treated as atomic with the subsequent field resets: in
the suspension window of `aclose` the socket object is still the one bound
to the recorded address and both queues are untouched, so no state
distinguishable by the claims is skipped.
-/

/-- A connected UDP socket object, identified by the remote address it is
bound to and a ghost creation counter distinguishing socket objects. -/
structure Socket where
  addr : Address
  gen : Nat
deriving DecidableEq

/-- An outgoing packet: the encoded payload plus the ghost record of the
address the connection was bound to when `send` enqueued it. -/
structure TaggedPacket where
  payload : Nat
  tag : Address
deriving DecidableEq

/-- A transmission captured by the send task at src/client.py line 108: the
generation and bound address of the socket object it read from
`self._socket`, and the packet it popped from the outgoing queue. -/
structure Capture where
  gen : Nat
  addr : Address
  pk : TaggedPacket
deriving DecidableEq

/-- Program counter of the lifecycle task `_socket_loop`: either at the top
of the `while` loop, or suspended inside
`anyio.create_connected_udp_socket` at src/client.py line 76 after having
read the requested address `a`. -/
inductive LoopPC
  | start
  | midConnect (a : Address)
deriving DecidableEq

/-- State of `_Connection` (src/client.py lines 16-31) plus task program
counters and ghost instrumentation.  `address := none` models the absent
pair `(None, None)`; `cancel_scope` models whether `self._cancel_scope`
holds a scope; `cancelled` is a ghost flag recording that the scope's
`cancel()` was invoked; `inRun` is a ghost flag meaning execution is
between `run`'s entry and its return. -/
structure Conn where
  encode : Nat → Nat
  decode : Nat → Nat
  socket : Option Socket
  address : Option Address
  out_queue : List TaggedPacket
  in_queue : List Nat
  cancel_scope : Bool
  cancelled : Bool
  close_flag : Bool
  connect_address : Option Address
  lpc : LoopPC
  spc : Option Capture
  rpc : Option Nat
  nextGen : Nat
  inRun : Bool

/-- The freshly constructed `_Connection()` (src/client.py lines 16-31). -/
def conn0 : Conn :=
  { encode := fun x => x, decode := fun x => x,
    socket := none, address := none,
    out_queue := [], in_queue := [],
    cancel_scope := false, cancelled := false,
    close_flag := false, connect_address := none,
    lpc := .start, spc := none, rpc := none,
    nextGen := 0, inRun := false }

/-- Property `_Connection.closed` (src/client.py lines 42-49): true iff
there is no active socket. -/
def Conn.closed (s : Conn) : Bool := s.socket.isNone

/-- Internal `_Connection._close_socket` (src/client.py lines 51-60): if a
socket is open, close it, reset socket and address, and clear both
queues; otherwise do nothing. -/
def Conn.closeSocket (s : Conn) : Conn :=
  match s.socket with
  | some _ =>
    {s with socket := none, address := none, out_queue := [], in_queue := []}
  | none => s

/-- Public `_Connection.connect` (src/client.py lines 83-90): record the
requested address; the lifecycle task services it later. -/
def Conn.connect (a : Address) (s : Conn) : Conn :=
  {s with connect_address := some a}

/-- Public `_Connection.close` (src/client.py lines 92-100): set the close
request flag; the lifecycle task services it later. -/
def Conn.close (s : Conn) : Conn :=
  {s with close_flag := true}

/-- Public `_Connection.send` (src/client.py lines 132-139): if not closed,
encode the value and append it to the outgoing queue; if closed, do
nothing.  The ghost tag records the currently bound address. -/
def Conn.send (v : Nat) (s : Conn) : Conn :=
  match s.socket with
  | some sk => {s with out_queue := s.out_queue ++ [⟨s.encode v, sk.addr⟩]}
  | none => s

/-- Public `_Connection.shutdown` (src/client.py lines 184-191): if a
cancel scope is stored, cancel it and drop the reference; otherwise do
nothing. -/
def Conn.shutdown (s : Conn) : Conn :=
  if s.cancel_scope then {s with cancel_scope := false, cancelled := true} else s

/-- Property `_Connection.running` (src/client.py lines 193-199): true iff
a cancel scope reference is stored. -/
def Conn.running (s : Conn) : Bool := s.cancel_scope

/-- Entry of `_Connection.run` (src/client.py lines 160-178): store the
requested address (line 168) and, at the start of `main`, the task group's
cancel scope (line 173).  The ghost `inRun` flag turns on. -/
def Conn.runStart (addr : Option Address) (s : Conn) : Conn :=
  {s with connect_address := addr, cancel_scope := true, inRun := true}

/-- How an execution of `_Connection.run` ends: `cancelled` means the task
group exited cleanly because its cancel scope was cancelled by
`shutdown()`; `errored` means an exception propagated out of one of the
tasks (the task group re-raises it out of `main`). -/
inductive RunEnd
  | cancelled
  | errored
deriving DecidableEq

/-- Exit of `_Connection.run` (src/client.py lines 179-182): on a clean
(cancelled) exit of the task group the statement after the `async with`
runs `_close_socket` (line 180); an exception propagating out of the task
group leaves `main` — and hence `run` — without reaching line 180, so no
teardown happens on that path.  Either way execution is no longer inside
`run`. -/
def Conn.runExit : RunEnd → Conn → Conn
  | .cancelled, s => {s.closeSocket with inRun := false}
  | .errored, s => {s with inRun := false}

/-- One inter-`await` block of the lifecycle task `_socket_loop`
(src/client.py lines 62-81).  From the loop top: service a pending close
request (lines 66-68), then, if a connect is requested, tear the old
socket down (line 74) and suspend inside socket creation having read the
requested address (argument of line 76).  From inside socket creation:
store the new socket (line 76), re-read `self._connect_address` into
`self._address` (line 78) and clear the request (line 79). -/
def Conn.socketLoopStep (s : Conn) : Conn :=
  match s.lpc with
  | .start =>
    let s1 := if s.close_flag then Conn.closeSocket {s with close_flag := false} else s
    match s1.connect_address with
    | some a => {Conn.closeSocket s1 with lpc := .midConnect a}
    | none => s1
  | .midConnect a =>
    {s with socket := some ⟨a, s.nextGen⟩,
            address := s.connect_address,
            connect_address := none,
            nextGen := s.nextGen + 1,
            lpc := .start}

/-- An observable transmission of the connection: the send task hands the
packet to a socket object bound to `target` (src/client.py line 108). -/
inductive Ev
  | sent (target : Address) (pk : TaggedPacket)
deriving DecidableEq

/-- The `anyio.ClosedResourceError` raised when a task touches a socket
object that has been closed by a concurrent teardown. -/
inductive CRE
  | closedResource
deriving DecidableEq

/-- Completion of the transmission begun at src/client.py line 108: if the
captured socket object is still the live one (same generation), the
datagram goes out to the address that object is bound to; if the object
has been closed or replaced by a concurrent teardown, the `await` raises
`anyio.ClosedResourceError`. -/
def Conn.sendFinish (c : Capture) (s : Conn) : Except CRE Ev :=
  match s.socket with
  | some sk => if sk.gen = c.gen then .ok (.sent c.addr c.pk) else .error .closedResource
  | none => .error .closedResource

/-- One inter-`await` block of the send task `_send_loop` (src/client.py
lines 102-114).  With a transmission in flight, complete it; the
`except anyio.ClosedResourceError: pass` at lines 112-114 turns a failed
completion into a no-op (the packet is not re-queued).  Otherwise, if
bound and the queue is non-empty, pop the head and begin transmitting it
on the current socket object (line 108); else yield (line 111). -/
def Conn.sendLoopStep (s : Conn) : Conn × Option Ev :=
  match s.spc with
  | some c =>
    match Conn.sendFinish c s with
    | .ok ev => ({s with spc := none}, some ev)
    | .error _ => ({s with spc := none}, none)
  | none =>
    match s.socket, s.out_queue with
    | some sk, pk :: rest =>
      ({s with out_queue := rest, spc := some ⟨sk.gen, sk.addr, pk⟩}, none)
    | _, _ => (s, none)

/-- Outcome of one wait on the `async for` iterator captured at
src/client.py line 123: if the captured socket object (generation `g`) is
still the live one the wait may yield a datagram; if it has been closed or
replaced the wait raises `anyio.ClosedResourceError`. -/
def Conn.recvFinish (g : Nat) (s : Conn) : Except CRE Unit :=
  match s.socket with
  | some sk => if sk.gen = g then .ok () else .error .closedResource
  | none => .error .closedResource

/-- One inter-`await` block of the receive task `_recv_loop` (src/client.py
lines 116-130).  While iterating a captured socket: append a delivered
datagram to the incoming queue (line 124), keep waiting if none arrived,
and on `anyio.ClosedResourceError` fall out of the `async for` into the
`except ... pass` at lines 128-130 and return to the loop top.  At the
loop top: capture the current socket and enter its `async for` (line 123),
or yield when closed (line 127). -/
def Conn.recvLoopStep (delivered : Option Nat) (s : Conn) : Conn :=
  match s.rpc with
  | some g =>
    match Conn.recvFinish g s with
    | .ok _ =>
      match delivered with
      | some p => {s with in_queue := s.in_queue ++ [p]}
      | none => s
    | .error _ => {s with rpc := none}
  | none =>
    match s.socket with
    | some sk => {s with rpc := some sk.gen}
    | none => s

/-- One atomic step of the interleaved execution: either the application
task invokes one public method, or one of the three internal tasks runs
one inter-`await` block.  `recvL` carries the datagram (if any) the
network delivered during the wait. -/
inductive Act
  | connect (a : Address)
  | close
  | send (v : Nat)
  | shutdown
  | life
  | sendL
  | recvL (delivered : Option Nat)

/-- The step function of the interleaved execution, with the transmission
event (if any) the step produces. -/
def Conn.step : Act → Conn → Conn × Option Ev
  | .connect a, s => (Conn.connect a s, none)
  | .close, s => (Conn.close s, none)
  | .send v, s => (Conn.send v s, none)
  | .shutdown, s => (Conn.shutdown s, none)
  | .life, s => (Conn.socketLoopStep s, none)
  | .sendL, s => Conn.sendLoopStep s
  | .recvL d, s => (Conn.recvLoopStep d s, none)

/-- States reachable during one execution of `run`: the entry state for an
arbitrary optional address argument, closed under arbitrary interleavings
of the atomic steps. -/
inductive Reachable : Conn → Prop
  | base (a : Option Address) : Reachable (Conn.runStart a conn0)
  | step (act : Act) {s : Conn} : Reachable s → Reachable (Conn.step act s).1

/-- States reachable during one execution of `run` in which the
application never calls `connect` while the lifecycle task is suspended
inside socket creation (everything else is unrestricted). -/
inductive ReachableSafe : Conn → Prop
  | base (a : Option Address) : ReachableSafe (Conn.runStart a conn0)
  | connect (a : Address) {s : Conn} :
      ReachableSafe s → s.lpc = .start → ReachableSafe (Conn.connect a s)
  | close {s : Conn} : ReachableSafe s → ReachableSafe (Conn.close s)
  | send (v : Nat) {s : Conn} : ReachableSafe s → ReachableSafe (Conn.send v s)
  | shutdown {s : Conn} : ReachableSafe s → ReachableSafe (Conn.shutdown s)
  | life {s : Conn} : ReachableSafe s → ReachableSafe (Conn.socketLoopStep s)
  | sendL {s : Conn} : ReachableSafe s → ReachableSafe (Conn.sendLoopStep s).1
  | recvL (d : Option Nat) {s : Conn} : ReachableSafe s → ReachableSafe (Conn.recvLoopStep d s)

/-- The state invariant maintained by every interleaving.  `gensock` and
`genspc` say the ghost generation counter is fresh; `outTag` says every
queued outgoing packet was enqueued while the currently live socket was
bound (so its tag is that socket's address); `outClosed`/`inClosed`/
`addrClosed` say an unbound connection has empty queues and the absent
address; `spcTag`/`spcAddr` constrain an in-flight transmission: its packet
is tagged with the captured socket's bound address, and any live socket
with the captured generation is that captured socket; `midSock`/`midConn`
describe the lifecycle task suspended inside socket creation: the old
socket is already gone and a connect request is recorded. -/
structure Inv (s : Conn) : Prop where
  gensock : ∀ sk, s.socket = some sk → sk.gen < s.nextGen
  genspc : ∀ c, s.spc = some c → c.gen < s.nextGen
  outTag : ∀ pk ∈ s.out_queue, ∀ sk, s.socket = some sk → pk.tag = sk.addr
  outClosed : s.socket = none → s.out_queue = []
  inClosed : s.socket = none → s.in_queue = []
  addrClosed : s.socket = none → s.address = none
  spcTag : ∀ c, s.spc = some c → c.pk.tag = c.addr
  spcAddr : ∀ c, s.spc = some c → ∀ sk, s.socket = some sk → sk.gen = c.gen → sk.addr = c.addr
  midSock : ∀ a, s.lpc = .midConnect a → s.socket = none
  midConn : ∀ a, s.lpc = .midConnect a → s.connect_address.isSome

theorem inv_closeSocket {s : Conn} (h : Inv s) : Inv (Conn.closeSocket s) := by
  obtain ⟨g1, g2, g3, g4, g5, g6, g7, g8, g9, g10⟩ := h
  obtain ⟨enc, dec, sock, addr, outq, inq, cs, cd, cf, ca, lp, sp, rp, ng, ir⟩ := s
  cases sock with
  | none => exact ⟨g1, g2, g3, g4, g5, g6, g7, g8, g9, g10⟩
  | some sk =>
    refine ⟨?_, g2, ?_, ?_, ?_, ?_, g7, ?_, ?_, g10⟩
    · intro sk' h'; simp [Conn.closeSocket] at h'
    · intro pk hpk; simp [Conn.closeSocket] at hpk
    · intro _; rfl
    · intro _; rfl
    · intro _; rfl
    · intro c hc sk' hsk'; simp [Conn.closeSocket] at hsk'
    · intro a _; rfl

theorem inv_connect (a : Address) {s : Conn} (h : Inv s) : Inv (Conn.connect a s) := by
  obtain ⟨g1, g2, g3, g4, g5, g6, g7, g8, g9, g10⟩ := h
  exact ⟨g1, g2, g3, g4, g5, g6, g7, g8, g9, fun a' _ => rfl⟩

theorem inv_close {s : Conn} (h : Inv s) : Inv (Conn.close s) := by
  obtain ⟨g1, g2, g3, g4, g5, g6, g7, g8, g9, g10⟩ := h
  exact ⟨g1, g2, g3, g4, g5, g6, g7, g8, g9, g10⟩

theorem inv_shutdown {s : Conn} (h : Inv s) : Inv (Conn.shutdown s) := by
  obtain ⟨g1, g2, g3, g4, g5, g6, g7, g8, g9, g10⟩ := h
  unfold Conn.shutdown
  split
  · exact ⟨g1, g2, g3, g4, g5, g6, g7, g8, g9, g10⟩
  · exact ⟨g1, g2, g3, g4, g5, g6, g7, g8, g9, g10⟩

theorem inv_send (v : Nat) {s : Conn} (h : Inv s) : Inv (Conn.send v s) := by
  obtain ⟨g1, g2, g3, g4, g5, g6, g7, g8, g9, g10⟩ := h
  obtain ⟨enc, dec, sock, addr, outq, inq, cs, cd, cf, ca, lp, sp, rp, ng, ir⟩ := s
  cases sock with
  | none => exact ⟨g1, g2, g3, g4, g5, g6, g7, g8, g9, g10⟩
  | some sk =>
    refine ⟨g1, g2, ?_, ?_, g5, g6, g7, g8, g9, g10⟩
    · intro pk hpk sk' hsk'
      simp only [Conn.send] at hpk
      rcases List.mem_append.mp hpk with hold | hnew
      · exact g3 pk hold sk' hsk'
      · have hpk' : pk = ⟨enc v, sk.addr⟩ := by simpa using hnew
        have hsk : sk' = sk := by
          have := hsk'
          simp only [Conn.send] at this
          injection this with h2
          exact h2.symm
        subst hpk'; subst hsk; rfl
    · intro hn; simp [Conn.send] at hn

theorem inv_socketLoopStep {s : Conn} (h : Inv s) : Inv (Conn.socketLoopStep s) := by
  obtain ⟨g1, g2, g3, g4, g5, g6, g7, g8, g9, g10⟩ := h
  obtain ⟨enc, dec, sock, addr, outq, inq, cs, cd, cf, ca, lp, sp, rp, ng, ir⟩ := s
  cases lp with
  | midConnect a =>
    have hsock : sock = none := g9 a rfl
    subst hsock
    have hout : outq = [] := g4 rfl
    have hin : inq = [] := g5 rfl
    subst hout; subst hin
    refine ⟨?_, ?_, ?_, ?_, ?_, ?_, g7, ?_, ?_, ?_⟩
    · intro sk' h'
      simp only [Conn.socketLoopStep] at h'
      injection h' with h2
      subst h2
      exact Nat.lt_succ_self _
    · intro c hc
      exact Nat.lt_succ_of_lt (g2 c hc)
    · intro pk hpk; simp [Conn.socketLoopStep] at hpk
    · intro hn; simp [Conn.socketLoopStep] at hn
    · intro hn; simp [Conn.socketLoopStep] at hn
    · intro hn; simp [Conn.socketLoopStep] at hn
    · intro c hc sk' hsk' hg
      simp only [Conn.socketLoopStep] at hsk'
      injection hsk' with h2
      subst h2
      have : c.gen < ng := g2 c hc
      have hg' : ng = c.gen := hg
      omega
    · intro a' h'; simp [Conn.socketLoopStep] at h'
    · intro a' h'; simp [Conn.socketLoopStep] at h'
  | start =>
    cases cf with
    | false =>
      cases ca with
      | none => exact ⟨g1, g2, g3, g4, g5, g6, g7, g8, g9, g10⟩
      | some a =>
        cases sock with
        | none =>
          have hout : outq = [] := g4 rfl
          have hin : inq = [] := g5 rfl
          have haddr : addr = none := g6 rfl
          subst hout; subst hin; subst haddr
          refine ⟨?_, g2, ?_, ?_, ?_, ?_, g7, ?_, ?_, ?_⟩
          · intro sk' h'; simp [Conn.socketLoopStep, Conn.closeSocket] at h'
          · intro pk hpk; simp [Conn.socketLoopStep, Conn.closeSocket] at hpk
          · intro _; rfl
          · intro _; rfl
          · intro _; rfl
          · intro c hc sk' hsk'; simp [Conn.socketLoopStep, Conn.closeSocket] at hsk'
          · intro a' _; rfl
          · intro a' _; rfl
        | some sk =>
          refine ⟨?_, g2, ?_, ?_, ?_, ?_, g7, ?_, ?_, ?_⟩
          · intro sk' h'; simp [Conn.socketLoopStep, Conn.closeSocket] at h'
          · intro pk hpk; simp [Conn.socketLoopStep, Conn.closeSocket] at hpk
          · intro _; rfl
          · intro _; rfl
          · intro _; rfl
          · intro c hc sk' hsk'; simp [Conn.socketLoopStep, Conn.closeSocket] at hsk'
          · intro a' _; rfl
          · intro a' _; rfl
    | true =>
      cases sock with
      | none =>
        have hout : outq = [] := g4 rfl
        have hin : inq = [] := g5 rfl
        have haddr : addr = none := g6 rfl
        subst hout; subst hin; subst haddr
        cases ca with
        | none => exact ⟨g1, g2, g3, g4, g5, g6, g7, g8, g9, fun a' _ => by simp [Conn.socketLoopStep, Conn.closeSocket] at *⟩
        | some a =>
          refine ⟨?_, g2, ?_, ?_, ?_, ?_, g7, ?_, ?_, ?_⟩
          · intro sk' h'; simp [Conn.socketLoopStep, Conn.closeSocket] at h'
          · intro pk hpk; simp [Conn.socketLoopStep, Conn.closeSocket] at hpk
          · intro _; rfl
          · intro _; rfl
          · intro _; rfl
          · intro c hc sk' hsk'; simp [Conn.socketLoopStep, Conn.closeSocket] at hsk'
          · intro a' _; rfl
          · intro a' _; rfl
      | some sk =>
        cases ca with
        | none =>
          refine ⟨?_, g2, ?_, ?_, ?_, ?_, g7, ?_, ?_, ?_⟩
          · intro sk' h'; simp [Conn.socketLoopStep, Conn.closeSocket] at h'
          · intro pk hpk; simp [Conn.socketLoopStep, Conn.closeSocket] at hpk
          · intro _; rfl
          · intro _; rfl
          · intro _; rfl
          · intro c hc sk' hsk'; simp [Conn.socketLoopStep, Conn.closeSocket] at hsk'
          · intro a' h'; simp [Conn.socketLoopStep, Conn.closeSocket] at h'
          · intro a' h'; simp [Conn.socketLoopStep, Conn.closeSocket] at h'
        | some a =>
          refine ⟨?_, g2, ?_, ?_, ?_, ?_, g7, ?_, ?_, ?_⟩
          · intro sk' h'; simp [Conn.socketLoopStep, Conn.closeSocket] at h'
          · intro pk hpk; simp [Conn.socketLoopStep, Conn.closeSocket] at hpk
          · intro _; rfl
          · intro _; rfl
          · intro _; rfl
          · intro c hc sk' hsk'; simp [Conn.socketLoopStep, Conn.closeSocket] at hsk'
          · intro a' _; rfl
          · intro a' _; rfl

theorem inv_sendLoopStep {s : Conn} (h : Inv s) : Inv (Conn.sendLoopStep s).1 := by
  obtain ⟨g1, g2, g3, g4, g5, g6, g7, g8, g9, g10⟩ := h
  obtain ⟨enc, dec, sock, addr, outq, inq, cs, cd, cf, ca, lp, sp, rp, ng, ir⟩ := s
  cases sp with
  | some c =>
    have hfst : (Conn.sendLoopStep ⟨enc, dec, sock, addr, outq, inq, cs, cd, cf, ca, lp, some c, rp, ng, ir⟩).1 =
        ⟨enc, dec, sock, addr, outq, inq, cs, cd, cf, ca, lp, none, rp, ng, ir⟩ := by
      cases hf : Conn.sendFinish c ⟨enc, dec, sock, addr, outq, inq, cs, cd, cf, ca, lp, some c, rp, ng, ir⟩ <;>
        simp [Conn.sendLoopStep, hf]
    rw [hfst]
    refine ⟨g1, ?_, g3, g4, g5, g6, ?_, ?_, g9, g10⟩
    · intro c' hc'; simp at hc'
    · intro c' hc'; simp at hc'
    · intro c' hc'; simp at hc'
  | none =>
    cases sock with
    | none => exact ⟨g1, g2, g3, g4, g5, g6, g7, g8, g9, g10⟩
    | some sk =>
      cases outq with
      | nil => exact ⟨g1, g2, g3, g4, g5, g6, g7, g8, g9, g10⟩
      | cons pk rest =>
        refine ⟨g1, ?_, ?_, ?_, g5, g6, ?_, ?_, ?_, g10⟩
        · intro c' hc'
          simp only [Conn.sendLoopStep] at hc'
          injection hc' with h2
          subst h2
          exact g1 sk rfl
        · intro pk' hpk' sk' hsk'
          simp only [Conn.sendLoopStep] at hpk'
          exact g3 pk' (List.mem_cons_of_mem pk hpk') sk' hsk'
        · intro hn; simp [Conn.sendLoopStep] at hn
        · intro c' hc'
          simp only [Conn.sendLoopStep] at hc'
          injection hc' with h2
          subst h2
          exact g3 pk (List.mem_cons_self pk rest) sk rfl
        · intro c' hc' sk' hsk' hg
          simp only [Conn.sendLoopStep] at hc' hsk'
          injection hc' with h2
          injection hsk' with h3
          subst h2; subst h3
          rfl
        · intro a' h'
          have := g9 a' h'
          simp at this

theorem inv_recvLoopStep (d : Option Nat) {s : Conn} (h : Inv s) :
    Inv (Conn.recvLoopStep d s) := by
  obtain ⟨g1, g2, g3, g4, g5, g6, g7, g8, g9, g10⟩ := h
  obtain ⟨enc, dec, sock, addr, outq, inq, cs, cd, cf, ca, lp, sp, rp, ng, ir⟩ := s
  cases rp with
  | some g =>
    cases sock with
    | none => exact ⟨g1, g2, g3, g4, g5, g6, g7, g8, g9, g10⟩
    | some sk =>
      by_cases hg : sk.gen = g
      · cases d with
        | none =>
          have hstep : Conn.recvLoopStep none ⟨enc, dec, some sk, addr, outq, inq, cs, cd, cf, ca, lp, sp, some g, ng, ir⟩ =
              ⟨enc, dec, some sk, addr, outq, inq, cs, cd, cf, ca, lp, sp, some g, ng, ir⟩ := by
            simp [Conn.recvLoopStep, Conn.recvFinish, hg]
          rw [hstep]
          exact ⟨g1, g2, g3, g4, g5, g6, g7, g8, g9, g10⟩
        | some p =>
          have hstep : Conn.recvLoopStep (some p) ⟨enc, dec, some sk, addr, outq, inq, cs, cd, cf, ca, lp, sp, some g, ng, ir⟩ =
              ⟨enc, dec, some sk, addr, outq, inq ++ [p], cs, cd, cf, ca, lp, sp, some g, ng, ir⟩ := by
            simp [Conn.recvLoopStep, Conn.recvFinish, hg]
          rw [hstep]
          refine ⟨g1, g2, g3, g4, ?_, g6, g7, g8, g9, g10⟩
          · intro hn; simp at hn
      · have hstep : Conn.recvLoopStep d ⟨enc, dec, some sk, addr, outq, inq, cs, cd, cf, ca, lp, sp, some g, ng, ir⟩ =
            ⟨enc, dec, some sk, addr, outq, inq, cs, cd, cf, ca, lp, sp, none, ng, ir⟩ := by
          simp [Conn.recvLoopStep, Conn.recvFinish, hg]
        rw [hstep]
        exact ⟨g1, g2, g3, g4, g5, g6, g7, g8, g9, g10⟩
  | none =>
    cases sock with
    | none => exact ⟨g1, g2, g3, g4, g5, g6, g7, g8, g9, g10⟩
    | some sk => exact ⟨g1, g2, g3, g4, g5, g6, g7, g8, g9, g10⟩

theorem inv_step (act : Act) {s : Conn} (h : Inv s) : Inv (Conn.step act s).1 := by
  cases act with
  | connect a => exact inv_connect a h
  | close => exact inv_close h
  | send v => exact inv_send v h
  | shutdown => exact inv_shutdown h
  | life => exact inv_socketLoopStep h
  | sendL => exact inv_sendLoopStep h
  | recvL d => exact inv_recvLoopStep d h

theorem inv_runStart (a : Option Address) : Inv (Conn.runStart a conn0) := by
  refine ⟨?_, ?_, ?_, ?_, ?_, ?_, ?_, ?_, ?_, ?_⟩ <;>
    intros <;> simp_all [Conn.runStart, conn0]

theorem inv_reachable {s : Conn} (h : Reachable s) : Inv s := by
  induction h with
  | base a => exact inv_runStart a
  | step act hs ih => exact inv_step act ih

/-- The socket/address pairing invariant.  It holds of every interleaving
in which `connect` is never called while the lifecycle task is suspended
inside socket creation: the recorded connect request then still names the
address the suspended creation was started with (`midReq`), and socket and
recorded address agree (`pairSome`/`pairNone`). -/
structure InvS (s : Conn) : Prop where
  midReq : ∀ a, s.lpc = .midConnect a → s.connect_address = some a
  pairSome : ∀ sk, s.socket = some sk → s.address = some sk.addr
  pairNone : s.socket = none → s.address = none

theorem invS_closeSocket {s : Conn} (h : InvS s) : InvS (Conn.closeSocket s) := by
  obtain ⟨f1, f2, f3⟩ := h
  obtain ⟨enc, dec, sock, addr, outq, inq, cs, cd, cf, ca, lp, sp, rp, ng, ir⟩ := s
  cases sock with
  | none => exact ⟨f1, f2, f3⟩
  | some sk =>
    refine ⟨f1, ?_, ?_⟩
    · intro sk' h'; simp [Conn.closeSocket] at h'
    · intro _; rfl

theorem invS_socketLoopStep {s : Conn} (h : InvS s) : InvS (Conn.socketLoopStep s) := by
  obtain ⟨f1, f2, f3⟩ := h
  obtain ⟨enc, dec, sock, addr, outq, inq, cs, cd, cf, ca, lp, sp, rp, ng, ir⟩ := s
  cases lp with
  | midConnect a =>
    have hca : ca = some a := f1 a rfl
    subst hca
    refine ⟨?_, ?_, ?_⟩
    · intro a' h'; simp [Conn.socketLoopStep] at h'
    · intro sk' h'
      simp only [Conn.socketLoopStep] at h'
      injection h' with h2
      subst h2
      rfl
    · intro hn; simp [Conn.socketLoopStep] at hn
  | start =>
    cases cf with
    | false =>
      cases ca with
      | none => exact ⟨f1, f2, f3⟩
      | some a =>
        cases sock with
        | none =>
          have haddr : addr = none := f3 rfl
          subst haddr
          refine ⟨?_, ?_, ?_⟩
          · intro a' h'
            simp only [Conn.socketLoopStep, Conn.closeSocket] at h'
            injection h' with h2
            subst h2
            rfl
          · intro sk' h'; simp [Conn.socketLoopStep, Conn.closeSocket] at h'
          · intro _; rfl
        | some sk =>
          refine ⟨?_, ?_, ?_⟩
          · intro a' h'
            simp only [Conn.socketLoopStep, Conn.closeSocket] at h'
            injection h' with h2
            subst h2
            rfl
          · intro sk' h'; simp [Conn.socketLoopStep, Conn.closeSocket] at h'
          · intro _; rfl
    | true =>
      cases sock with
      | none =>
        have haddr : addr = none := f3 rfl
        subst haddr
        cases ca with
        | none =>
          refine ⟨?_, ?_, ?_⟩
          · intro a' h'; simp [Conn.socketLoopStep, Conn.closeSocket] at h'
          · intro sk' h'; simp [Conn.socketLoopStep, Conn.closeSocket] at h'
          · intro _; rfl
        | some a =>
          refine ⟨?_, ?_, ?_⟩
          · intro a' h'
            simp only [Conn.socketLoopStep, Conn.closeSocket] at h'
            injection h' with h2
            subst h2
            rfl
          · intro sk' h'; simp [Conn.socketLoopStep, Conn.closeSocket] at h'
          · intro _; rfl
      | some sk =>
        cases ca with
        | none =>
          refine ⟨?_, ?_, ?_⟩
          · intro a' h'; simp [Conn.socketLoopStep, Conn.closeSocket] at h'
          · intro sk' h'; simp [Conn.socketLoopStep, Conn.closeSocket] at h'
          · intro _; rfl
        | some a =>
          refine ⟨?_, ?_, ?_⟩
          · intro a' h'
            simp only [Conn.socketLoopStep, Conn.closeSocket] at h'
            injection h' with h2
            subst h2
            rfl
          · intro sk' h'; simp [Conn.socketLoopStep, Conn.closeSocket] at h'
          · intro _; rfl

theorem invS_sendLoopStep {s : Conn} (h : InvS s) : InvS (Conn.sendLoopStep s).1 := by
  obtain ⟨f1, f2, f3⟩ := h
  obtain ⟨enc, dec, sock, addr, outq, inq, cs, cd, cf, ca, lp, sp, rp, ng, ir⟩ := s
  cases sp with
  | some c =>
    have hfst : (Conn.sendLoopStep ⟨enc, dec, sock, addr, outq, inq, cs, cd, cf, ca, lp, some c, rp, ng, ir⟩).1 =
        ⟨enc, dec, sock, addr, outq, inq, cs, cd, cf, ca, lp, none, rp, ng, ir⟩ := by
      cases hf : Conn.sendFinish c ⟨enc, dec, sock, addr, outq, inq, cs, cd, cf, ca, lp, some c, rp, ng, ir⟩ <;>
        simp [Conn.sendLoopStep, hf]
    rw [hfst]
    exact ⟨f1, f2, f3⟩
  | none =>
    cases sock with
    | none => exact ⟨f1, f2, f3⟩
    | some sk =>
      cases outq with
      | nil => exact ⟨f1, f2, f3⟩
      | cons pk rest => exact ⟨f1, f2, f3⟩

theorem invS_recvLoopStep (d : Option Nat) {s : Conn} (h : InvS s) :
    InvS (Conn.recvLoopStep d s) := by
  obtain ⟨f1, f2, f3⟩ := h
  obtain ⟨enc, dec, sock, addr, outq, inq, cs, cd, cf, ca, lp, sp, rp, ng, ir⟩ := s
  cases rp with
  | some g =>
    cases sock with
    | none => exact ⟨f1, f2, f3⟩
    | some sk =>
      by_cases hg : sk.gen = g
      · cases d with
        | none =>
          have hstep : Conn.recvLoopStep none ⟨enc, dec, some sk, addr, outq, inq, cs, cd, cf, ca, lp, sp, some g, ng, ir⟩ =
              ⟨enc, dec, some sk, addr, outq, inq, cs, cd, cf, ca, lp, sp, some g, ng, ir⟩ := by
            simp [Conn.recvLoopStep, Conn.recvFinish, hg]
          rw [hstep]
          exact ⟨f1, f2, f3⟩
        | some p =>
          have hstep : Conn.recvLoopStep (some p) ⟨enc, dec, some sk, addr, outq, inq, cs, cd, cf, ca, lp, sp, some g, ng, ir⟩ =
              ⟨enc, dec, some sk, addr, outq, inq ++ [p], cs, cd, cf, ca, lp, sp, some g, ng, ir⟩ := by
            simp [Conn.recvLoopStep, Conn.recvFinish, hg]
          rw [hstep]
          exact ⟨f1, f2, f3⟩
      · have hstep : Conn.recvLoopStep d ⟨enc, dec, some sk, addr, outq, inq, cs, cd, cf, ca, lp, sp, some g, ng, ir⟩ =
            ⟨enc, dec, some sk, addr, outq, inq, cs, cd, cf, ca, lp, sp, none, ng, ir⟩ := by
          simp [Conn.recvLoopStep, Conn.recvFinish, hg]
        rw [hstep]
        exact ⟨f1, f2, f3⟩
  | none =>
    cases sock with
    | none => exact ⟨f1, f2, f3⟩
    | some sk => exact ⟨f1, f2, f3⟩

theorem invS_connect (a : Address) {s : Conn} (h : InvS s) (hl : s.lpc = .start) :
    InvS (Conn.connect a s) := by
  obtain ⟨f1, f2, f3⟩ := h
  refine ⟨?_, f2, f3⟩
  intro a' h'
  rw [show (Conn.connect a s).lpc = s.lpc from rfl, hl] at h'
  exact absurd h' (by simp)

theorem invS_close {s : Conn} (h : InvS s) : InvS (Conn.close s) := by
  obtain ⟨f1, f2, f3⟩ := h
  exact ⟨f1, f2, f3⟩

theorem invS_send (v : Nat) {s : Conn} (h : InvS s) : InvS (Conn.send v s) := by
  obtain ⟨f1, f2, f3⟩ := h
  obtain ⟨enc, dec, sock, addr, outq, inq, cs, cd, cf, ca, lp, sp, rp, ng, ir⟩ := s
  cases sock with
  | none => exact ⟨f1, f2, f3⟩
  | some sk => exact ⟨f1, f2, f3⟩

theorem invS_shutdown {s : Conn} (h : InvS s) : InvS (Conn.shutdown s) := by
  obtain ⟨f1, f2, f3⟩ := h
  unfold Conn.shutdown
  split
  · exact ⟨f1, f2, f3⟩
  · exact ⟨f1, f2, f3⟩

theorem invS_runStart (a : Option Address) : InvS (Conn.runStart a conn0) := by
  refine ⟨?_, ?_, ?_⟩ <;> intros <;> simp_all [Conn.runStart, conn0]

theorem invS_reachableSafe {s : Conn} (h : ReachableSafe s) : InvS s := by
  induction h with
  | base a => exact invS_runStart a
  | connect a hs hl ih => exact invS_connect a ih hl
  | close hs ih => exact invS_close ih
  | send v hs ih => exact invS_send v ih
  | shutdown hs ih => exact invS_shutdown ih
  | life hs ih => exact invS_socketLoopStep ih
  | sendL hs ih => exact invS_sendLoopStep ih
  | recvL d hs ih => exact invS_recvLoopStep d ih

/-- A first concrete remote address, used to instantiate theorems. -/
def addr1 : Address := ("h1", 1)

/-- A second, different concrete remote address. -/
def addr2 : Address := ("h2", 2)

/-- Entry of `run` with `address = addr1` (src/client.py line 168). -/
def raceS0 : Conn := Conn.runStart (some addr1) conn0

/-- The lifecycle task runs once: it sees the pending connect request,
tears down (nothing to do) and suspends inside socket creation having read
`addr1`. -/
def raceS1 : Conn := (Conn.step .life raceS0).1

/-- While the lifecycle task is suspended inside socket creation, the
application task requests `connect addr2`. -/
def raceS2 : Conn := (Conn.step (.connect addr2) raceS1).1

/-- Socket creation completes: the socket is bound to `addr1` (the address
read at src/client.py line 76 before the suspension) but line 78 re-reads
`self._connect_address`, which now holds `addr2`, and line 79 then discards
the `addr2` request. -/
def raceS3 : Conn := (Conn.step .life raceS2).1

/-- A connection bound to `addr1`: run entry followed by two undisturbed
lifecycle steps. -/
def boundS : Conn := (Conn.step .life raceS1).1

theorem closeSocket_socket (s : Conn) : (Conn.closeSocket s).socket = none := by
  cases h : s.socket <;> simp [Conn.closeSocket, h]

/-- C2 (counterexample): the claim that `run` always tears the socket down
before returning is false on the error path.  `boundS` is reachable with an
open socket; if a fatal error then propagates out of a task, the task group
re-raises it out of `main`, line 180 never runs, and `run` has returned
(raised) with the socket still open and `closed` still false. -/
theorem C2_counterexample :
    Reachable boundS ∧
    (Conn.runExit .errored boundS).inRun = false ∧
    (Conn.runExit .errored boundS).socket = some ⟨addr1, 0⟩ ∧
    (Conn.runExit .errored boundS).closed = false :=
  ⟨.step .life (.step .life (.base (some addr1))), rfl, rfl, rfl⟩

/-- C2 (amended): final socket teardown happens whenever `run` ends through
`shutdown()` cancellation — the task group then exits cleanly and line 180
runs `_close_socket` — but when a fatal error propagates out of a task the
cleanup statement is skipped and the socket is left exactly as it was. -/
theorem C2_teardown_on_cancelled_exit (s : Conn) :
    (Conn.runExit .cancelled s).socket = none ∧
    (Conn.runExit .cancelled s).closed = true ∧
    (Conn.runExit .cancelled s).inRun = false ∧
    (Conn.runExit .errored s).socket = s.socket := by
  refine ⟨closeSocket_socket s, ?_, rfl, rfl⟩
  simp [Conn.runExit, Conn.closed, closeSocket_socket s]

/-- C3: `send(v)` on a closed connection never raises, enqueues nothing,
and produces no transmission — the value is dropped, not buffered (the
guard at src/client.py line 138 skips the append entirely). -/
theorem C3_send_while_closed (v : Nat) (s : Conn) (h : s.closed = true) :
    Conn.step (.send v) s = (s, none) := by
  have hn : s.socket = none := by simpa [Conn.closed] using h
  simp [Conn.step, Conn.send, hn]

theorem C3_witness :
    Conn.step (.send 5) (Conn.runStart none conn0) = (Conn.runStart none conn0, none) :=
  C3_send_while_closed 5 (Conn.runStart none conn0) rfl

/-- C4: once the lifecycle task services a pending close request (the
branch at src/client.py lines 66-68 of a loop iteration), the connection is
closed, the recorded address is the absent pair, and both queues are empty
— so no packet queued before the close survives into a later reconnect. -/
theorem C4_close_serviced (s : Conn) (hr : Reachable s)
    (hc : s.close_flag = true) (hl : s.lpc = .start) :
    (Conn.step .life s).1.closed = true ∧
    (Conn.step .life s).1.socket = none ∧
    (Conn.step .life s).1.address = none ∧
    (Conn.step .life s).1.out_queue = [] ∧
    (Conn.step .life s).1.in_queue = [] := by
  have hInv := inv_reachable hr
  obtain ⟨enc, dec, sock, addr, outq, inq, cs, cd, cf, ca, lp, sp, rp, ng, ir⟩ := s
  obtain ⟨g1, g2, g3, g4, g5, g6, g7, g8, g9, g10⟩ := hInv
  have hcf : cf = true := hc
  subst hcf
  have hlp : lp = .start := hl
  subst hlp
  cases sock with
  | none =>
    have hout : outq = [] := g4 rfl
    have hin : inq = [] := g5 rfl
    have haddr : addr = none := g6 rfl
    subst hout; subst hin; subst haddr
    cases ca with
    | none => exact ⟨rfl, rfl, rfl, rfl, rfl⟩
    | some a => exact ⟨rfl, rfl, rfl, rfl, rfl⟩
  | some sk =>
    cases ca with
    | none => exact ⟨rfl, rfl, rfl, rfl, rfl⟩
    | some a => exact ⟨rfl, rfl, rfl, rfl, rfl⟩

/-- The bound connection with one packet queued and a close requested:
inputs for the C4 theorem. -/
def c4pre : Conn := (Conn.step .close (Conn.step (.send 5) boundS).1).1

theorem C4_witness :
    (Conn.step .life c4pre).1.closed = true ∧
    (Conn.step .life c4pre).1.socket = none ∧
    (Conn.step .life c4pre).1.address = none ∧
    (Conn.step .life c4pre).1.out_queue = [] ∧
    (Conn.step .life c4pre).1.in_queue = [] :=
  C4_close_serviced c4pre
    (.step .close (.step (.send 5) (.step .life (.step .life (.base (some addr1))))))
    rfl rfl

/-- C5 (counterexample): the socket/address pairing claimed invariant is
violated by a reachable interleaving.  Request `connect addr1` at run
entry; the lifecycle task reads `addr1` and suspends inside socket
creation; the application requests `connect addr2` during that suspension;
creation completes: the socket is bound to `addr1`, but src/client.py
line 78 re-reads `self._connect_address` and records `addr2`, and line 79
discards the `addr2` request — every task thereafter observes a socket
bound to `addr1` with recorded address `addr2`. -/
theorem C5_counterexample :
    Reachable raceS3 ∧
    raceS3.socket = some ⟨addr1, 0⟩ ∧
    raceS3.address = some addr2 ∧
    addr1 ≠ addr2 :=
  ⟨.step .life (.step (.connect addr2) (.step .life (.base (some addr1)))),
   rfl, rfl, by decide⟩

/-- C5 (amended): at every observation point of every interleaving in
which `connect` is not invoked while the lifecycle task is suspended
inside socket creation, exactly one of the two states holds: no socket and
the absent address pair, or one socket together with the address it is
bound to. -/
theorem C5_pairing_safe (s : Conn) (hr : ReachableSafe s) :
    (s.socket = none ∧ s.address = none) ∨
    (∃ sk, s.socket = some sk ∧ s.address = some sk.addr) := by
  obtain ⟨f1, f2, f3⟩ := invS_reachableSafe hr
  cases hs : s.socket with
  | none => exact Or.inl ⟨rfl, f3 hs⟩
  | some sk => exact Or.inr ⟨sk, rfl, f2 sk hs⟩

theorem C5_witness :
    (boundS.socket = none ∧ boundS.address = none) ∨
    (∃ sk, boundS.socket = some sk ∧ boundS.address = some sk.addr) :=
  C5_pairing_safe boundS (.life (.life (.base (some addr1))))

/-- C6: when a connect is being serviced the old socket is torn down
before the new one becomes usable (while the lifecycle task is suspended
inside socket creation there is no socket), and every transmission the
send task completes goes to the address the packet was enqueued under,
which is the bound address of the still-live socket object used — so a
packet enqueued before a reconnect is never transmitted on the new socket
to the new target, in any interleaving. -/
theorem C6_reconnect_isolation (s : Conn) (hr : Reachable s) :
    (∀ a, s.lpc = .midConnect a → s.socket = none) ∧
    (∀ act tgt pk, (Conn.step act s).2 = some (.sent tgt pk) →
      pk.tag = tgt ∧ ∃ sk, s.socket = some sk ∧ sk.addr = tgt) := by
  have hInv := inv_reachable hr
  obtain ⟨enc, dec, sock, addr, outq, inq, cs, cd, cf, ca, lp, sp, rp, ng, ir⟩ := s
  obtain ⟨g1, g2, g3, g4, g5, g6, g7, g8, g9, g10⟩ := hInv
  refine ⟨g9, ?_⟩
  intro act tgt pk hev
  cases act with
  | connect a => simp [Conn.step] at hev
  | close => simp [Conn.step] at hev
  | send v => simp [Conn.step] at hev
  | shutdown => simp [Conn.step] at hev
  | life => simp [Conn.step] at hev
  | recvL d => simp [Conn.step] at hev
  | sendL =>
    simp only [Conn.step] at hev
    cases sp with
    | none =>
      cases sock with
      | none => simp [Conn.sendLoopStep] at hev
      | some sk =>
        cases outq with
        | nil => simp [Conn.sendLoopStep] at hev
        | cons pk0 rest => simp [Conn.sendLoopStep] at hev
    | some c =>
      cases sock with
      | none => simp [Conn.sendLoopStep, Conn.sendFinish] at hev
      | some sk =>
        by_cases hg : sk.gen = c.gen
        · simp only [Conn.sendLoopStep, Conn.sendFinish, hg, if_pos] at hev
          simp only [Option.some.injEq, Ev.sent.injEq] at hev
          obtain ⟨h1, h2⟩ := hev
          subst h1; subst h2
          exact ⟨g7 c rfl, sk, rfl, g8 c rfl sk rfl hg⟩
        · simp [Conn.sendLoopStep, Conn.sendFinish, hg] at hev

theorem C6_witness :
    (∀ a, boundS.lpc = .midConnect a → boundS.socket = none) ∧
    (∀ act tgt pk, (Conn.step act boundS).2 = some (.sent tgt pk) →
      pk.tag = tgt ∧ ∃ sk, boundS.socket = some sk ∧ sk.addr = tgt) :=
  C6_reconnect_isolation boundS (.step .life (.step .life (.base (some addr1))))

/-- C7: when the send task or the receive task touches a socket that a
concurrent close/reconnect has torn down, the resulting
`anyio.ClosedResourceError` is caught inside that task (src/client.py
lines 112-114 and 128-130) and the step degenerates to a no-op: the task
returns to its loop with only its own program counter reset, no
transmission happens, and the packet whose transmission failed is not
re-queued. -/
theorem C7_stale_socket_caught (s : Conn) :
    (∀ c, s.spc = some c → Conn.sendFinish c s = .error .closedResource →
      Conn.sendLoopStep s = ({s with spc := none}, none)) ∧
    (∀ g d, s.rpc = some g → Conn.recvFinish g s = .error .closedResource →
      Conn.recvLoopStep d s = {s with rpc := none}) := by
  constructor
  · intro c hc herr
    simp [Conn.sendLoopStep, hc, herr]
  · intro g d hg herr
    simp [Conn.recvLoopStep, hg, herr]

/-- A reachable connection whose send and receive tasks both hold a
reference to a socket that a serviced close has since torn down. -/
def staleS : Conn :=
  (Conn.step .life
    (Conn.step .close
      (Conn.step (.recvL none)
        (Conn.step .sendL
          (Conn.step (.send 5) boundS).1).1).1).1).1

/-- The in-flight transmission held by the send task of `staleS`. -/
def staleCap : Capture := ⟨0, addr1, ⟨5, addr1⟩⟩

theorem C7_witness :
    Conn.sendLoopStep staleS = ({staleS with spc := none}, none) ∧
    Conn.recvLoopStep none staleS = {staleS with rpc := none} :=
  ⟨(C7_stale_socket_caught staleS).1 staleCap rfl rfl,
   (C7_stale_socket_caught staleS).2 0 none rfl rfl⟩

/-- C8 (counterexample): `running` is not true at every point between
`run`'s entry and its return.  After `shutdown()` is called from inside
the run (src/client.py lines 189-191 drop the cancel scope reference), and
before the cancellation actually unwinds the tasks and `run` returns,
execution is still inside `run` yet `running` already reports false. -/
theorem C8_counterexample :
    (Conn.shutdown (Conn.runStart none conn0)).inRun = true ∧
    (Conn.shutdown (Conn.runStart none conn0)).running = false :=
  ⟨rfl, rfl⟩

/-- C8 (amended): `running` reports whether the cancel scope reference is
installed — it becomes true at `run` entry and false as soon as
`shutdown()` is called, even while still inside the run; a run that ends
with a propagating error never resets it, so it then stays true after
`run` has returned. -/
theorem C8_running_tracks_scope (s : Conn) (a : Option Address) :
    (Conn.runStart a s).running = true ∧
    (Conn.shutdown s).running = false ∧
    (Conn.runExit .errored s).running = s.running ∧
    (Conn.runExit .errored (Conn.runStart a s)).running = true ∧
    (Conn.runExit .errored (Conn.runStart a s)).inRun = false := by
  refine ⟨rfl, ?_, rfl, rfl, rfl⟩
  unfold Conn.shutdown Conn.running
  split
  · rfl
  · rename_i h
    simpa using h

/-- C9: `close()` twice leaves the same observable state as once;
`shutdown()` twice leaves the same observable state as once; and
`shutdown()` when not running is a no-op (the guard at src/client.py
line 189 finds no stored scope). -/
theorem C9_idempotence (s : Conn) :
    Conn.close (Conn.close s) = Conn.close s ∧
    Conn.shutdown (Conn.shutdown s) = Conn.shutdown s ∧
    (s.running = false → Conn.shutdown s = s) := by
  refine ⟨rfl, ?_, ?_⟩
  · cases hcs : s.cancel_scope
    · simp [Conn.shutdown, hcs]
    · simp [Conn.shutdown, hcs]
  · intro h
    have hcs : s.cancel_scope = false := h
    simp [Conn.shutdown, hcs]

theorem C9_witness :
    Conn.close (Conn.close conn0) = Conn.close conn0 ∧
    Conn.shutdown (Conn.shutdown conn0) = Conn.shutdown conn0 ∧
    Conn.shutdown conn0 = conn0 :=
  ⟨(C9_idempotence conn0).1, (C9_idempotence conn0).2.1, (C9_idempotence conn0).2.2 rfl⟩

end UdpDemo
